import Mathlib

/-
Verification development for the `stock-market-words` pipeline
(`python3/src/stock_ticker/`).  The Python modules `utils.py`, `retry.py`,
`database.py`, `extractors.py`, `builders.py`, `ftp_sync.py` and `cli.py`
are shallowly embedded below: SQLite tables become lists of rows, Python
dicts become association lists, floats become rationals (the arithmetic
involved in the verified claims — doubling, halving, `min`, means of
integer-valued series — is exact in binary floating point, so the rational
embedding is faithful on the inputs used), and raised exceptions become
`Except` values.  Statuses are kept as the literal strings the code uses.
-/

namespace StockTicker

/-! ## config.py -/
/-- Embeds `config.BACKOFF_INITIAL_DELAY = 0.5` (seconds). -/
def BACKOFF_INITIAL_DELAY : ℚ := 1 / 2

/-- Embeds `config.BACKOFF_MAX_DELAY = 300` (seconds). -/
def BACKOFF_MAX_DELAY : ℚ := 300

/-- Embeds `config.BACKOFF_MULTIPLIER = 2.0`. -/
def BACKOFF_MULTIPLIER : ℚ := 2

/-- Embeds `config.PRICE_BATCH_SIZE = 100`. -/
def PRICE_BATCH_SIZE : ℕ := 100

/-- Embeds `config.METADATA_BATCH_SIZE = 50`. -/
def METADATA_BATCH_SIZE : ℕ := 50

/-! ## utils.py -/
/-- Embeds Python's `str.strip()`: remove leading and trailing whitespace
(`utils.is_valid_symbol` line 30, `symbol = symbol.strip()`). -/
def pyStrip (s : String) : String :=
  ⟨((s.data.dropWhile Char.isWhitespace).reverse.dropWhile Char.isWhitespace).reverse⟩

/-- The derivative-class last characters rejected by `is_valid_symbol`
(`utils.py` line 49): warrant, right, unit, preferred, deficient, foreign. -/
def DERIVATIVE_SUFFIXES : List Char := ['W', 'R', 'U', 'P', 'Q', 'F']

/-- Embeds `utils.is_valid_symbol`.  The Python function strips whitespace,
matches the regex `^[A-Z]{1,5}$` (embedded as: length between 1 and 5 and
every character an ASCII capital letter), rejects the fixed denylist
`('TEST', 'ZZZZ', 'XXXX')`, and rejects 5-letter symbols whose last
character is in `DERIVATIVE_SUFFIXES`.  Non-string / `None` inputs return
`False` in Python; the embedding's domain is `String`, which covers every
string input. -/
def is_valid_symbol (symbol : String) : Bool :=
  let s := pyStrip symbol
  if ¬ (1 ≤ s.length ∧ s.length ≤ 5 ∧ ∀ c ∈ s.data, 'A' ≤ c ∧ c ≤ 'Z') then
    false
  else if s = "TEST" ∨ s = "ZZZZ" ∨ s = "XXXX" then
    false
  else if s.length = 5 ∧ (∃ c ∈ DERIVATIVE_SUFFIXES, s.data.getLast? = some c) then
    false
  else
    true

/-! ## retry.py — RetryTracker -/
/-- Association-list lookup, embedding Python dict access `d.get(k)` /
`k in d`. -/
def dictGet {κ α : Type} [DecidableEq κ] (l : List (κ × α)) (k : κ) : Option α :=
  match l with
  | [] => none
  | (k', v') :: rest => if k' = k then some v' else dictGet rest k

/-- Association-list update, embedding Python dict assignment `d[k] = v`. -/
def dictInsert {κ α : Type} [DecidableEq κ] (l : List (κ × α)) (k : κ) (v : α) :
    List (κ × α) :=
  match l with
  | [] => [(k, v)]
  | (k', v') :: rest => if k' = k then (k, v) :: rest else (k', v') :: dictInsert rest k v

/-- Association-list removal, embedding Python `del d[k]`. -/
def dictRemove {κ α : Type} [DecidableEq κ] (l : List (κ × α)) (k : κ) : List (κ × α) :=
  match l with
  | [] => []
  | (k', v') :: rest => if k' = k then rest else (k', v') :: dictRemove rest k

/-- Embeds the state of `retry.RetryTracker`: the configured ceiling and the
two per-topic dicts (current delay in seconds, attempt count). -/
structure RetryTracker where
  max_delay : ℚ
  topic_delays : List (String × ℚ)
  topic_attempts : List (String × ℕ)
  deriving DecidableEq

/-- Embeds `RetryTracker.record_failure` (`retry.py` lines 35–77).  A new
topic is initialised to `BACKOFF_INITIAL_DELAY` with attempt count 0; the
attempt count is then incremented; if the current delay has reached
`max_delay` the method raises `BackoffLimitExceeded` (embedded as `.error`,
carrying the mutated tracker); otherwise it sleeps `current_delay`, stores
`min (current_delay * BACKOFF_MULTIPLIER) max_delay` as the next delay and
returns the delay that was waited. -/
def RetryTracker.record_failure (t : RetryTracker) (topic : String) :
    Except RetryTracker (ℚ × RetryTracker) :=
  let delays := if (dictGet t.topic_delays topic).isSome then t.topic_delays
                else dictInsert t.topic_delays topic BACKOFF_INITIAL_DELAY
  let attempts := if (dictGet t.topic_delays topic).isSome then t.topic_attempts
                  else dictInsert t.topic_attempts topic 0
  let current_delay := (dictGet delays topic).getD 0
  let attempts' := dictInsert attempts topic ((dictGet attempts topic).getD 0 + 1)
  if t.max_delay ≤ current_delay then
    .error { t with topic_delays := delays, topic_attempts := attempts' }
  else
    let next_delay := min (current_delay * BACKOFF_MULTIPLIER) t.max_delay
    .ok (current_delay,
      { t with topic_delays := dictInsert delays topic next_delay,
               topic_attempts := attempts' })

/-- Embeds `RetryTracker.record_success` (`retry.py` lines 79–91): if the
topic has an entry, both per-topic entries are deleted. -/
def RetryTracker.record_success (t : RetryTracker) (topic : String) : RetryTracker :=
  if (dictGet t.topic_delays topic).isSome then
    { t with topic_delays := dictRemove t.topic_delays topic,
             topic_attempts := dictRemove t.topic_attempts topic }
  else t

/-- Embeds `RetryTracker()` as constructed by `retry.get_retry_tracker()`:
ceiling `BACKOFF_MAX_DELAY`, empty dicts. -/
def initial_tracker : RetryTracker := ⟨BACKOFF_MAX_DELAY, [], []⟩

/-- The tracker after `n` consecutive `record_failure` calls on `topic`
starting from a fresh tracker (the raising call keeps the mutated state,
matching Python, where the exception propagates but the object survives). -/
def failN (topic : String) : ℕ → RetryTracker
  | 0 => initial_tracker
  | n + 1 =>
    match (failN topic n).record_failure topic with
    | .ok (_, t') => t'
    | .error t' => t'

/-- The delay returned (= synchronously waited) by the `(n+1)`-st
consecutive `record_failure` call on `topic`, or `none` when that call
raises `BackoffLimitExceeded`. -/
def returnedDelay (topic : String) (n : ℕ) : Option ℚ :=
  match (failN topic n).record_failure topic with
  | .ok (d, _) => some d
  | .error _ => none

/-- The current delay the `(n+1)`-st call sees for `topic` (after the
initialise-if-absent step, so `BACKOFF_INITIAL_DELAY` for a fresh topic). -/
def current_delay_before (topic : String) (n : ℕ) : ℚ :=
  (dictGet (failN topic n).topic_delays topic).getD BACKOFF_INITIAL_DELAY

/-- The mathematical delay sequence: the current delay stored for a topic
after `n` consecutive failures. -/
def delaySeq : ℕ → ℚ
  | 0 => BACKOFF_INITIAL_DELAY
  | n + 1 => min (delaySeq n * BACKOFF_MULTIPLIER) BACKOFF_MAX_DELAY

/-! ## The relational store (schema.sql), embedded as lists of rows -/
/-- A row of the `tickers` table.  Created by Directory Sync with
`INSERT OR IGNORE`; never updated or deleted. -/
structure TickerRow where
  symbol : String
  name : String
  exchange : String
  is_etf : Bool
  deriving DecidableEq

/-- A row of the `daily_metrics` table, keyed by `(symbol, date)`.  Pass 1
creates it with price/volume; Pass 2 fills the fundamental columns (only
the columns the verified claims mention are carried). -/
structure DailyMetricRow where
  symbol : String
  date : String
  price : Option ℚ
  volume : Option ℤ
  market_cap : Option ℚ
  dividend_yield : Option ℚ
  beta : Option ℚ
  rsi_14 : Option ℚ
  ma_200 : Option ℚ
  deriving DecidableEq

/-- A row of the `strategy_scores` table, keyed by `(symbol, date)`. -/
structure StrategyScoreRow where
  symbol : String
  date : String
  dividend_daddy_score : ℤ
  moon_shot_score : ℤ
  falling_knife_score : ℤ
  over_hyped_score : ℤ
  inst_whale_score : ℤ
  deriving DecidableEq

/-- A row of the `pipeline_steps` table, keyed by `(step_name, run_date)`.
`completed_at` is the `CURRENT_TIMESTAMP` written by
`database.record_pipeline_step`, embedded as a natural number so that
`ORDER BY completed_at DESC` is expressible. -/
structure PipelineStepRow where
  step_name : String
  run_date : String
  completed_at : ℕ
  tickers_processed : ℕ
  status : String
  deriving DecidableEq

/-- A row of the `pipeline_runs` table (only the columns the verified
claims mention are carried). -/
structure PipelineRunRow where
  run_id : ℕ
  run_date : String
  status : String
  deriving DecidableEq

/-- A row of the `ticker_sync_history` table. -/
structure TickerSyncRow where
  id : ℕ
  run_id : ℕ
  sync_type : String
  symbol : String
  batch_number : ℕ
  status : String
  deriving DecidableEq

/-- A row of the `sync_history` table (the "synced today" marker consulted
by `ftp_sync.sync_ftp`). -/
structure SyncHistoryRow where
  sync_date : String
  tickers_synced : ℕ
  deriving DecidableEq

/-- The whole relational store. -/
structure DB where
  tickers : List TickerRow
  daily_metrics : List DailyMetricRow
  strategy_scores : List StrategyScoreRow
  pipeline_steps : List PipelineStepRow
  pipeline_runs : List PipelineRunRow
  ticker_sync_history : List TickerSyncRow
  sync_history : List SyncHistoryRow
  deriving DecidableEq

/-! ## database.py — pipeline state -/
/-- The five required stage names (`database.get_pipeline_state`, the local
`all_steps` list). -/
def ALL_STEPS : List String :=
  ["sync-ftp", "extract-prices", "extract-metadata", "build", "generate-hugo"]

/-- One step of insertion sort, placing `row` by descending `completed_at`. -/
def insertByCompletedAtDesc (row : PipelineStepRow) :
    List PipelineStepRow → List PipelineStepRow
  | [] => [row]
  | r :: rest =>
    if r.completed_at ≤ row.completed_at then row :: r :: rest
    else r :: insertByCompletedAtDesc row rest

/-- Insertion sort by descending `completed_at`, embedding the
`ORDER BY completed_at DESC` of the step query in `get_pipeline_state`. -/
def sortByCompletedAtDesc : List PipelineStepRow → List PipelineStepRow
  | [] => []
  | r :: rest => insertByCompletedAtDesc r (sortByCompletedAtDesc rest)

/-- The result of `SELECT ... FROM pipeline_steps WHERE run_date = ?
ORDER BY completed_at DESC` (`database.get_pipeline_state`). -/
def steps_for_date (db : DB) (d : String) : List PipelineStepRow :=
  sortByCompletedAtDesc (db.pipeline_steps.filter (fun r => decide (r.run_date = d)))

/-- Embeds the SQL condition `price >= 5.0 AND volume >= 100000`
(`MIN_PRICE` / `MIN_VOLUME`); per SQL three-valued logic a NULL price or
volume fails the condition. -/
def passes_filter (m : DailyMetricRow) : Bool :=
  match m.price, m.volume with
  | some p, some v => decide ((5 : ℚ) ≤ p) && decide ((100000 : ℤ) ≤ v)
  | _, _ => false

/-- Embeds `database._get_step_total`: the expected total for a step, from
stage-specific count queries. -/
def get_step_total (db : DB) (step_name : String) (date : String) : ℕ :=
  if step_name = "sync-ftp" then
    db.tickers.length
  else if step_name = "extract-prices" then
    (db.tickers.filter (fun t => t.is_etf = false)).length
  else if step_name = "extract-metadata" then
    (db.daily_metrics.filter (fun m => decide (m.date = date) && passes_filter m)).length
  else if step_name = "build" then
    (db.daily_metrics.filter
      (fun m => decide (m.date = date) && passes_filter m && m.market_cap.isSome)).length
  else if step_name = "generate-hugo" then
    7
  else
    0

/-- The dict returned by `database.get_pipeline_state`. -/
structure PipelineStateResult where
  status : String
  current_step : Option String
  progress : Option (ℕ × ℕ)
  completed_steps : List String
  recommendation : String
  deriving DecidableEq

/-- The `completed_steps` list computed by `get_pipeline_state`: names of
this date's rows with status `completed`, in descending `completed_at`
order. -/
def completed_names (db : DB) (d : String) : List String :=
  ((steps_for_date db d).filter (fun s => decide (s.status = "completed"))).map
    (fun s => s.step_name)

/-- Embeds `database.get_pipeline_state` (lines 246–341).  The day's step
rows are fetched in descending `completed_at` order; an empty ledger is
`idle`; otherwise any `in_progress` row (the most recent first) wins, then
any `failed` row, then `completed` iff the five required stage names are
all among the completed rows, else the day is partially complete. -/
def get_pipeline_state (db : DB) (target_date : String) : PipelineStateResult :=
  let steps := steps_for_date db target_date
  if steps = [] then
    ⟨"idle", none, none, [], "run"⟩
  else
    match steps.filter (fun s => decide (s.status = "in_progress")) with
    | s :: _ =>
      ⟨"in_progress", some s.step_name,
        some (s.tickers_processed, get_step_total db s.step_name target_date),
        completed_names db target_date, "resume"⟩
    | [] =>
      match steps.filter (fun s => decide (s.status = "failed")) with
      | f :: _ =>
        ⟨"failed", some f.step_name, none, completed_names db target_date, "restart"⟩
      | [] =>
        if ∀ s ∈ ALL_STEPS, s ∈ completed_names db target_date then
          ⟨"completed", none, none, completed_names db target_date, "idle"⟩
        else
          ⟨"partial", none, none, completed_names db target_date, "resume"⟩

/-- The concrete step ledger refuting C1 as stated: on 2025-01-02 every one
of the five required stage names has a completed row, but a sixth row
(step name `unknown`, as written by `cli.run_all`'s failure handler when
the failing stage cannot be identified from the traceback) has status
`failed`. -/
def c1_db : DB :=
  { tickers := []
    daily_metrics := []
    strategy_scores := []
    pipeline_steps :=
      [⟨"sync-ftp", "2025-01-02", 1, 11, "completed"⟩,
       ⟨"extract-prices", "2025-01-02", 2, 10, "completed"⟩,
       ⟨"extract-metadata", "2025-01-02", 3, 9, "completed"⟩,
       ⟨"build", "2025-01-02", 4, 9, "completed"⟩,
       ⟨"generate-hugo", "2025-01-02", 5, 7, "completed"⟩,
       ⟨"unknown", "2025-01-02", 6, 0, "failed"⟩]
    pipeline_runs := []
    ticker_sync_history := []
    sync_history := [] }

/-! ## extractors.py — Pass 1 pending set and batching -/
/-- Insertion step for ascending string sort. -/
def insertAsc (s : String) : List String → List String
  | [] => [s]
  | x :: rest => if s ≤ x then s :: x :: rest else x :: insertAsc s rest

/-- Insertion sort of symbols, embedding `ORDER BY symbol` in the Pass 1
pending query. -/
def sortAsc : List String → List String
  | [] => []
  | x :: rest => insertAsc x (sortAsc rest)

/-- Embeds the `NOT IN` subquery of `extract_prices`: does a
`daily_metrics` row with this symbol, today's date and a non-NULL price
exist? -/
def has_price_row (db : DB) (today s : String) : Bool :=
  db.daily_metrics.any
    (fun m => decide (m.symbol = s) && decide (m.date = today) && m.price.isSome)

/-- Embeds the Pass 1 pending query (`extractors.extract_prices` lines
53–63): symbols of non-ETF tickers with no priced `daily_metrics` row for
today, ordered by symbol. -/
def pending_price_symbols (db : DB) (today : String) : List String :=
  sortAsc ((db.tickers.filter
      (fun t => !t.is_etf && !(has_price_row db today t.symbol))).map
    (fun t => t.symbol))

/-- Fuel-indexed batch splitter; the fuel is instantiated with the list
length, which suffices for any positive batch size. -/
def batchesAux {α : Type} (size : ℕ) : ℕ → List α → List (List α)
  | 0, _ => []
  | _, [] => []
  | fuel + 1, l => l.take size :: batchesAux size fuel (l.drop size)

/-- Embeds the Pass 1 batch loop `for i in range(0, total, PRICE_BATCH_SIZE):
batch = pending_symbols[i:i + PRICE_BATCH_SIZE]`. -/
def batches {α : Type} (size : ℕ) (l : List α) : List (List α) :=
  batchesAux size l.length l

/-! ## database.py — clean_today_data, cli.py — reset -/
/-- The `run_id`s of pipeline runs on a date: the subquery
`SELECT run_id FROM pipeline_runs WHERE run_date = ?`. -/
def run_ids_for_date (db : DB) (d : String) : List ℕ :=
  (db.pipeline_runs.filter (fun r => decide (r.run_date = d))).map (fun r => r.run_id)

/-- Embeds the actual-deletion branch of `database.clean_today_data`
(lines 807–887).  `DELETE ... WHERE C` keeps exactly the rows violating
`C`.  With no step name every per-date table is cleaned; `sync-ftp` and
`generate-hugo` clean only their own step row; the two extract steps clean
their `ticker_sync_history` slice, all of today's `daily_metrics` and
their own step row; `build` cleans today's `strategy_scores` and its own
step row; an unrecognised step name deletes nothing. -/
def clean_today_data (step_name : Option String) (target_date : String) (db : DB) : DB :=
  match step_name with
  | none =>
    { db with
      ticker_sync_history := db.ticker_sync_history.filter
        (fun r => decide (r.run_id ∉ run_ids_for_date db target_date))
      pipeline_runs := db.pipeline_runs.filter (fun r => decide (r.run_date ≠ target_date))
      strategy_scores := db.strategy_scores.filter (fun r => decide (r.date ≠ target_date))
      daily_metrics := db.daily_metrics.filter (fun r => decide (r.date ≠ target_date))
      pipeline_steps := db.pipeline_steps.filter (fun r => decide (r.run_date ≠ target_date)) }
  | some nm =>
    if nm = "sync-ftp" then
      { db with
        pipeline_steps := db.pipeline_steps.filter
          (fun r => decide (¬ (r.run_date = target_date ∧ r.step_name = nm))) }
    else if nm = "extract-prices" ∨ nm = "extract-metadata" then
      { db with
        ticker_sync_history := db.ticker_sync_history.filter
          (fun r => decide (¬ (r.run_id ∈ run_ids_for_date db target_date
            ∧ r.sync_type = (if nm = "extract-prices" then "price" else "metadata"))))
        daily_metrics := db.daily_metrics.filter (fun r => decide (r.date ≠ target_date))
        pipeline_steps := db.pipeline_steps.filter
          (fun r => decide (¬ (r.run_date = target_date ∧ r.step_name = nm))) }
    else if nm = "build" then
      { db with
        strategy_scores := db.strategy_scores.filter (fun r => decide (r.date ≠ target_date))
        pipeline_steps := db.pipeline_steps.filter
          (fun r => decide (¬ (r.run_date = target_date ∧ r.step_name = nm))) }
    else if nm = "generate-hugo" then
      { db with
        pipeline_steps := db.pipeline_steps.filter
          (fun r => decide (¬ (r.run_date = target_date ∧ r.step_name = nm))) }
    else
      db

/-- Embeds the three `DELETE` statements of the `reset` CLI command
(`cli.py` lines 977–979). -/
def cli_reset (today : String) (db : DB) : DB :=
  { db with
    daily_metrics := db.daily_metrics.filter (fun r => decide (r.date ≠ today))
    strategy_scores := db.strategy_scores.filter (fun r => decide (r.date ≠ today))
    pipeline_steps := db.pipeline_steps.filter (fun r => decide (r.run_date ≠ today)) }

/-! ## extractors.py — Pass 2 RSI computation -/
/-- The last 14 entries of the masked delta series.
`hist['Close'].diff()` yields a series whose first entry is NaN, but both
`delta.where(delta > 0, 0)` and `delta.where(delta < 0, 0)` replace that
NaN by 0 (`NaN > 0` and `NaN < 0` are both False), so the masked series is
`0` followed by the real differences — embedded by prepending `0`.  The
`rolling(window=14).mean()` at the final index covers the last 14 entries
of that series: with exactly 14 closes the window is complete and includes
the substituted leading 0. -/
def last_deltas_14 (closes : List ℚ) : List ℚ :=
  let ds := 0 :: List.zipWith (fun a b => b - a) closes closes.tail
  ds.drop (ds.length - 14)

/-- The rolling 14-day mean of positive deltas at the last index:
`(delta.where(delta > 0, 0)).rolling(window=14).mean()`. -/
def rsi_gain (closes : List ℚ) : ℚ :=
  ((last_deltas_14 closes).map (fun d => max d 0)).sum / 14

/-- The rolling 14-day mean of the absolute negative deltas at the last
index: `(-delta.where(delta < 0, 0)).rolling(window=14).mean()`. -/
def rsi_loss (closes : List ℚ) : ℚ :=
  ((last_deltas_14 closes).map (fun d => max (-d) 0)).sum / 14

/-- Embeds the Pass 2 RSI computation (`extractors.extract_metadata`,
lines 355–362).  The guard `len(hist) >= 14` gives `None` below 14 closes;
from 14 closes on, the `where` masks have already replaced the leading
diff NaN by 0, so the final 14-wide rolling window is complete and
`rs = gain / loss` follows IEEE-754 semantics: `0/0` is NaN (`pd.isna` →
`None`); `gain/0` with positive gain is `+inf`, `pd.isna(inf)` is false,
and `100 - 100/(1 + inf)` evaluates to `100.0`, which is stored; otherwise
the finite value `100 - 100/(1 + gain/loss)` is stored. -/
def rsi_14 (closes : List ℚ) : Option ℚ :=
  if closes.length < 14 then none
  else if rsi_loss closes = 0 ∧ rsi_gain closes = 0 then none
  else if rsi_loss closes = 0 then some 100
  else some (100 - 100 / (1 + rsi_gain closes / rsi_loss closes))

/-- A monotonically increasing 15-day close series: every delta is +1, so
the 14-day loss average is zero while the gain average is positive. -/
def up_closes : List ℚ := [1, 2, 3, 4, 5, 6, 7, 8, 9, 10, 11, 12, 13, 14, 15]

/-- An alternating series of exactly 14 closes (10, 11, 10, ...): its 13
real deltas are +1, −1, ..., +1, so the masked 14-wide window gives gain
7/14 and loss 6/14, and the code stores the numeric RSI
100 − 100/(1 + 7/6) = 700/13 — exercising the complete-window behaviour at
exactly 14 observations. -/
def alt_closes : List ℚ := [10, 11, 10, 11, 10, 11, 10, 11, 10, 11, 10, 11, 10, 11]

/-! ## builders.py — dividend_daddy score and percentile ranking -/
/-- Embeds the raw Dividend Daddy formula (`builders.py` lines 94–97):
`dividend_yield.fillna(0) * 100 + (100 - beta.fillna(1).abs() * 50)`. -/
def dividend_daddy_raw (dividend_yield beta : Option ℚ) : ℚ :=
  (dividend_yield.getD 0) * 100 + (100 - |beta.getD 1| * 50)

/-- Embeds pandas `Series.rank(pct=True)` at value `x` over the series
`xs`: the average rank of `x` (ties averaged, the pandas default) divided
by the number of values. -/
def rank_pct (xs : List ℚ) (x : ℚ) : ℚ :=
  (((xs.filter (fun y => decide (y < x))).length : ℚ)
    + (((xs.filter (fun y => decide (y = x))).length : ℚ) + 1) / 2) / (xs.length : ℚ)

/-- Embeds `df[col].rank(pct=True) * 100` followed by `astype(int)`
(`builders.py` lines 123–126).  `astype(int)` truncates toward zero;
percentile ranks are non-negative, so this is the floor.  The intervening
`fillna(50)` is a no-op here because `rank` only yields NaN for NaN
inputs. -/
def pct_score (xs : List ℚ) (x : ℚ) : ℤ := ⌊rank_pct xs x * 100⌋

/-! ## ftp_sync.py — Directory Sync -/
/-- A parsed data row of `nasdaqlisted.txt` (the footer row and rows with
a missing symbol are already removed by the parse). -/
structure NasdaqRow where
  symbol : String
  security_name : String
  test_issue : String
  etf : String
  financial_status : String
  deriving DecidableEq

/-- A parsed data row of `otherlisted.txt`. -/
structure OtherRow where
  act_symbol : String
  security_name : String
  exchange : String
  test_issue : String
  etf : String
  deriving DecidableEq

/-- One token of an embedded regex pattern: a literal character (matched
case-insensitively) or the `[A-Z]` class (any letter under
`re.IGNORECASE`). -/
inductive PatTok
  | lit (c : Char)
  | alpha
  deriving DecidableEq

/-- Literal pattern from a string. -/
def lits (s : String) : List PatTok := s.data.map PatTok.lit

/-- The `DERIVATIVE_KEYWORDS` regex list (`ftp_sync.py` lines 27–36),
each pattern wrapped in `\b ... \b` word boundaries by the caller. -/
def DERIVATIVE_KEYWORDS : List (List PatTok) :=
  [lits "Unit", lits "Units", lits "Warrant", lits "Warrants",
   lits "Preferred Stock", lits "Series " ++ [PatTok.alpha],
   lits "Depositary Shares", lits "American Depositary Shares",
   lits "Right", lits "Rights", lits "Trust Preferred", lits "Cumulative Preferred"]

/-- A regex word character (`\w`): alphanumeric or underscore. -/
def isWordChar (c : Char) : Bool := c.isAlphanum || c = '_'

/-- Case-insensitive match of a token pattern at the head of the text;
returns the remaining text on success. -/
def matchToks : List PatTok → List Char → Option (List Char)
  | [], rest => some rest
  | _ :: _, [] => none
  | .lit c :: ps, x :: xs => if x.toLower = c.toLower then matchToks ps xs else none
  | .alpha :: ps, x :: xs => if x.isAlpha then matchToks ps xs else none

/-- Is the position between `prev` and the (word-character-initial)
pattern a word boundary? -/
def boundary_ok : Option Char → Bool
  | none => true
  | some c => !isWordChar c

/-- Embeds `re.search` of `\b pat \b` under `re.IGNORECASE` over the
text: the pattern matches at some position with a word boundary on each
side (every keyword pattern begins and ends with a word character, so the
boundary just requires a non-word neighbour or the text edge). -/
def searchBoundary (pat : List PatTok) (prev : Option Char) (s : List Char) : Bool :=
  (boundary_ok prev
    && (match matchToks pat s with
        | some rest => rest.head?.all (fun c => !isWordChar c)
        | none => false))
  || (match s with
      | [] => false
      | x :: xs => searchBoundary pat (some x) xs)

/-- Embeds `ftp_sync._contains_derivative_keywords`. -/
def contains_derivative_keywords (name : String) : Bool :=
  DERIVATIVE_KEYWORDS.any (fun pat => searchBoundary pat none name.data)

/-- Case-insensitive substring search, embedding
`.str.contains('ETN', case=False, na=False)`. -/
def containsCI (pat : List PatTok) (s : List Char) : Bool :=
  (matchToks pat s).isSome
  || (match s with
      | [] => false
      | _ :: xs => containsCI pat xs)

/-- The ETN name filter of `sync_ftp`. -/
def contains_etn (name : String) : Bool := containsCI (lits "ETN") name.data

/-- The `nasdaqlisted.txt` filter chain (`ftp_sync.py` lines 110–133):
test issue `N`, not an ETF, no `ETN` in the name, financial status `N`,
no derivative keyword in the name, and `is_valid_symbol`. -/
def nasdaq_keep (r : NasdaqRow) : Bool :=
  decide (r.test_issue = "N") && decide (r.etf = "N")
  && !(contains_etn r.security_name)
  && decide (r.financial_status = "N")
  && !(contains_derivative_keywords r.security_name)
  && is_valid_symbol r.symbol

/-- The `otherlisted.txt` filter chain (`ftp_sync.py` lines 165–183): as
for NASDAQ but with no financial-status column. -/
def other_keep (r : OtherRow) : Bool :=
  decide (r.test_issue = "N") && decide (r.etf = "N")
  && !(contains_etn r.security_name)
  && !(contains_derivative_keywords r.security_name)
  && is_valid_symbol r.act_symbol

/-- `ftp_sync.EXCHANGE_MAP` for `otherlisted.txt` exchange codes. -/
def EXCHANGE_MAP : List (String × String) :=
  [("A", "NYSE MKT"), ("N", "NYSE"), ("P", "NYSE ARCA"), ("Z", "BATS"), ("V", "IEX")]

/-- Ticker row built from a kept NASDAQ feed row. -/
def nasdaq_ticker (r : NasdaqRow) : TickerRow :=
  ⟨pyStrip r.symbol, pyStrip r.security_name, "NASDAQ", false⟩

/-- Ticker row built from a kept other-exchange feed row, with the
exchange code remapped (unknown codes kept as-is). -/
def other_ticker (r : OtherRow) : TickerRow :=
  ⟨pyStrip r.act_symbol, pyStrip r.security_name,
    (dictGet EXCHANGE_MAP (pyStrip r.exchange)).getD (pyStrip r.exchange), false⟩

/-- `INSERT OR IGNORE INTO tickers` for a batch: a row whose symbol is
already present is skipped; returns the new table and the number of rows
actually inserted (`cursor.rowcount`). -/
def insert_tickers (t : List TickerRow) : List TickerRow → List TickerRow × ℕ
  | [] => (t, 0)
  | r :: rest =>
    if t.any (fun x => decide (x.symbol = r.symbol)) then insert_tickers t rest
    else
      let p := insert_tickers (t ++ [r]) rest
      (p.1, p.2 + 1)

/-- The external events of one `sync_ftp` invocation: whether the FTP
download of both files succeeded, and the parse result of each file
(`none` = `pd.read_csv` raised, i.e. the file is unparseable). -/
structure FtpRun where
  download_ok : Bool
  nasdaq_rows : Option (List NasdaqRow)
  other_rows : Option (List OtherRow)

/-- The observable outcome of a stage invocation: the updated store, the
`record_pipeline_step` calls made (step name, tickers processed, status)
in order, and whether the process exited fatally (`sys.exit(1)`). -/
structure SyncResult where
  db : DB
  step_writes : List (String × ℕ × String)
  fatal : Bool
  deriving DecidableEq

/-- Embeds `ftp_sync.sync_ftp` (lines 50–229).  If the synced-today marker
exists the stage is a no-op.  A download failure exits the process before
anything is written.  Each feed is parsed inside its own `try/except` whose
handler only logs: an unparseable feed contributes nothing (its batch
insert never runs) and execution continues.  Finally the `sync_history`
marker is upserted and a single `completed` step row is recorded; no
`in_progress` row is ever written by this stage. -/
def sync_ftp (db : DB) (today : String) (run : FtpRun) : SyncResult :=
  if db.sync_history.any (fun h => decide (h.sync_date = today)) then
    ⟨db, [], false⟩
  else if run.download_ok = false then
    ⟨db, [], true⟩
  else
    let p1 :=
      match run.nasdaq_rows with
      | none => (db.tickers, 0)
      | some rows => insert_tickers db.tickers ((rows.filter nasdaq_keep).map nasdaq_ticker)
    let p2 :=
      match run.other_rows with
      | none => (p1.1, 0)
      | some rows => insert_tickers p1.1 ((rows.filter other_keep).map other_ticker)
    ⟨{ db with
        tickers := p2.1
        sync_history := db.sync_history.filter (fun h => decide (h.sync_date ≠ today))
          ++ [⟨today, p1.2 + p2.2⟩] },
      [("sync-ftp", p1.2 + p2.2, "completed")], false⟩

/-! ## extractors.py / builders.py — step-row write traces -/
/-- `SELECT COUNT(*) FROM daily_metrics WHERE date = ? AND price IS NOT
NULL` (the already-completed summary of Pass 1). -/
def completed_price_count (db : DB) (today : String) : ℕ :=
  (db.daily_metrics.filter (fun m => decide (m.date = today) && m.price.isSome)).length

/-- `SELECT COUNT(*) FROM daily_metrics WHERE date = ? AND market_cap IS
NOT NULL` (the already-completed summary of Pass 2). -/
def metadata_completed_count (db : DB) (today : String) : ℕ :=
  (db.daily_metrics.filter (fun m => decide (m.date = today) && m.market_cap.isSome)).length

/-- The Pass 2 pending query (`extractors.py` lines 276–283): today's rows
passing the price/volume filter whose `market_cap` is still NULL, ordered
by symbol. -/
def pending_metadata_symbols (db : DB) (today : String) : List String :=
  sortAsc ((db.daily_metrics.filter
    (fun m => decide (m.date = today) && passes_filter m && m.market_cap.isNone)).map
      (fun m => m.symbol))

/-- Outcome of one Pass 1 batch: `ok saved` (the bulk download returned
data for `saved` symbols of the batch), `batch_error` (a batch-level
exception that is logged, possibly backed off, and the loop continues), or
`backoff_exceeded` (`BackoffLimitExceeded` propagates out of the stage). -/
inductive BatchResult
  | ok (saved : ℕ)
  | batch_error
  | backoff_exceeded
  deriving DecidableEq

/-- Outcome of one Pass 2 symbol fetch. -/
inductive SymbolResult
  | ok
  | fetch_error
  | backoff_exceeded
  deriving DecidableEq

/-- The `record_pipeline_step` calls made by the Pass 1 batch loop
(`extractors.py` lines 94–228): a progress row every 5th batch that saved
data, no write on a failed batch, loop abandoned on `BackoffLimitExceeded`
(so no `completed` row), and a final `completed` row with the processed
count otherwise. -/
def price_loop_writes : List BatchResult → ℕ → ℕ → List (String × ℕ × String)
  | [], processed, _ => [("extract-prices", processed, "completed")]
  | .ok saved :: rest, processed, batch_num =>
    (if 0 < saved ∧ batch_num % 5 = 0 then
      [("extract-prices", processed + saved, "in_progress")]
    else [])
      ++ price_loop_writes rest (processed + saved) (batch_num + 1)
  | .batch_error :: rest, processed, batch_num =>
    price_loop_writes rest processed (batch_num + 1)
  | .backoff_exceeded :: _, _, _ => []

/-- The full `record_pipeline_step` trace of `extract_prices`
(non-dry-run): an `in_progress` row with processed 0 is written first
(line 50), before the pending query; an empty pending set records
`completed` with the prior count; otherwise the batch loop runs. -/
def extract_prices_writes (db : DB) (today : String) (results : List BatchResult) :
    List (String × ℕ × String) :=
  ("extract-prices", 0, "in_progress") ::
    (if pending_price_symbols db today = [] then
      [("extract-prices", completed_price_count db today, "completed")]
    else price_loop_writes results 0 1)

/-- The `record_pipeline_step` calls of the Pass 2 symbol loop
(`extractors.py` lines 320–443): a progress row after every 10th processed
symbol, nothing on a per-symbol failure, abandoned on
`BackoffLimitExceeded`, and a final `completed` row otherwise. -/
def metadata_loop_writes : List SymbolResult → ℕ → List (String × ℕ × String)
  | [], processed => [("extract-metadata", processed, "completed")]
  | .ok :: rest, processed =>
    (if (processed + 1) % 10 = 0 then
      [("extract-metadata", processed + 1, "in_progress")]
    else [])
      ++ metadata_loop_writes rest (processed + 1)
  | .fetch_error :: rest, processed => metadata_loop_writes rest processed
  | .backoff_exceeded :: _, _ => []

/-- The full `record_pipeline_step` trace of `extract_metadata`
(non-dry-run): an `in_progress` row with processed 0 is written first
(line 269), before the pending query. -/
def extract_metadata_writes (db : DB) (today : String) (results : List SymbolResult) :
    List (String × ℕ × String) :=
  ("extract-metadata", 0, "in_progress") ::
    (if pending_metadata_symbols db today = [] then
      [("extract-metadata", metadata_completed_count db today, "completed")]
    else metadata_loop_writes results 0)

/-- The Build pending query (`builders.py` lines 41–63): today's rows
passing the price/volume filter with `market_cap` present. -/
def build_pending (db : DB) (today : String) : List DailyMetricRow :=
  db.daily_metrics.filter
    (fun m => decide (m.date = today) && passes_filter m && m.market_cap.isSome)

/-- The full `record_pipeline_step` trace of `build_assets` (non-dry-run,
`builders.py` lines 35–256): an empty frame returns without recording
anything; otherwise the only step row ever recorded is the final
`completed` one (line 256) — `build_assets` never writes an `in_progress`
row. -/
def build_assets_writes (db : DB) (today : String) : List (String × ℕ × String) :=
  if build_pending db today = [] then []
  else [("build", (build_pending db today).length, "completed")]

/-! ## retry.py — RequestMetrics -/
/-- Embeds the state of `retry.RequestMetrics`: `self.requests`, a dict
from `(service, endpoint)` to a call count.  This is the class's entire
state — it holds no byte counts and no failure tallies. -/
structure RequestMetrics where
  requests : List ((String × String) × ℕ)
  deriving DecidableEq

/-- Embeds `RequestMetrics.record_request(self, service,
endpoint='default')` (`retry.py` lines 138–147): increment the count for
`(service, endpoint)`. -/
def RequestMetrics.record_request (m : RequestMetrics) (service : String)
    (endpoint : String) : RequestMetrics :=
  ⟨dictInsert m.requests (service, endpoint)
    ((dictGet m.requests (service, endpoint)).getD 0 + 1)⟩

/-- Embeds `RequestMetrics.get_total()` with no service argument: the
grand total of all counts. -/
def RequestMetrics.get_total (m : RequestMetrics) : ℕ :=
  (m.requests.map (fun kv => kv.2)).sum

/-- The parameter names of `record_request` as defined (`retry.py` line
138), excluding `self`. -/
def record_request_params : List String := ["service", "endpoint"]

/-- The method names defined on class `RequestMetrics` (`retry.py` lines
127–197). -/
def request_metrics_methods : List String :=
  ["record_request", "get_counts", "get_total", "reset", "summary"]

/-- Models CPython keyword-argument binding for a call
`metrics.record_request(service, endpoint, **kwargs)`: a keyword argument
whose name is not among the declared parameters raises `TypeError` before
the method body runs. -/
def call_record_request (m : RequestMetrics) (service endpoint : String)
    (kwarg_names : List String) : Except String RequestMetrics :=
  if kwarg_names.all (fun k => record_request_params.contains k) then
    .ok (m.record_request service endpoint)
  else
    .error "TypeError"

/-- The empty store. -/
def empty_db : DB := ⟨[], [], [], [], [], [], []⟩

/-- The `FtpRun` used in the Directory Sync counterexamples: the download
succeeds, `nasdaqlisted.txt` is unparseable, and `otherlisted.txt` parses
to a single valid NYSE common-stock row. -/
def c5_run : FtpRun :=
  ⟨true, none, some [⟨"MSFT", "Microsoft Corporation Common Stock", "N", "N", "N"⟩]⟩

/-- A store holding one fully-enriched metric row for today, so that the
Build stage has work to do. -/
def c4_db : DB :=
  { tickers := [⟨"AAPL", "Apple Inc. Common Stock", "NASDAQ", false⟩]
    daily_metrics := [⟨"AAPL", "2025-01-02", some 150, some 50000000,
      some 2400000000000, some (1 / 200), some 1, some 55, some 140⟩]
    strategy_scores := []
    pipeline_steps := []
    pipeline_runs := []
    ticker_sync_history := []
    sync_history := [] }

theorem delaySeq_zero : delaySeq 0 = BACKOFF_INITIAL_DELAY := rfl

theorem delaySeq_succ (n : ℕ) :
    delaySeq (n + 1) = min (delaySeq n * BACKOFF_MULTIPLIER) BACKOFF_MAX_DELAY := rfl

theorem delaySeq_pos : ∀ n, 0 < delaySeq n := by
  intro n
  induction n with
  | zero => norm_num [delaySeq_zero, BACKOFF_INITIAL_DELAY]
  | succ m ih =>
    rw [delaySeq_succ]
    exact lt_min (mul_pos ih (by norm_num [BACKOFF_MULTIPLIER]))
      (by norm_num [BACKOFF_MAX_DELAY])

theorem delaySeq_le_max : ∀ n, delaySeq n ≤ BACKOFF_MAX_DELAY := by
  intro n
  cases n with
  | zero => norm_num [delaySeq_zero, BACKOFF_INITIAL_DELAY, BACKOFF_MAX_DELAY]
  | succ m => rw [delaySeq_succ]; exact min_le_right _ _

theorem delaySeq_mono : Monotone delaySeq := by
  apply monotone_nat_of_le_succ
  intro n
  rw [delaySeq_succ]
  refine le_min ?_ (delaySeq_le_max n)
  have h := (delaySeq_pos n).le
  rw [BACKOFF_MULTIPLIER]
  linarith

theorem delaySeq_closed (n : ℕ) :
    delaySeq n = min (BACKOFF_INITIAL_DELAY * BACKOFF_MULTIPLIER ^ n) BACKOFF_MAX_DELAY := by
  induction n with
  | zero =>
    norm_num [delaySeq_zero, BACKOFF_INITIAL_DELAY, BACKOFF_MULTIPLIER, BACKOFF_MAX_DELAY,
      min_def]
  | succ m ih =>
    rw [delaySeq_succ, ih,
      min_mul_of_nonneg _ _ (by norm_num [BACKOFF_MULTIPLIER] : (0:ℚ) ≤ BACKOFF_MULTIPLIER),
      min_assoc]
    congr 1
    · ring
    · norm_num [BACKOFF_MAX_DELAY, BACKOFF_MULTIPLIER, min_def]

theorem delaySeq_lt_max_iff (n : ℕ) : delaySeq n < BACKOFF_MAX_DELAY ↔ n < 10 := by
  rw [delaySeq_closed, min_lt_iff]
  have h2 : (1:ℚ) ≤ 2 := by norm_num
  constructor
  · rintro (h | h)
    · by_contra hn
      push_neg at hn
      have : (2:ℚ) ^ 10 ≤ 2 ^ n := pow_le_pow_right₀ h2 hn
      rw [BACKOFF_INITIAL_DELAY, BACKOFF_MULTIPLIER, BACKOFF_MAX_DELAY] at h
      norm_num at h this
      linarith
    · exact absurd h (lt_irrefl _)
  · intro hn
    left
    have : (2:ℚ) ^ n ≤ 2 ^ 9 := pow_le_pow_right₀ h2 (by omega)
    rw [BACKOFF_INITIAL_DELAY, BACKOFF_MULTIPLIER, BACKOFF_MAX_DELAY]
    norm_num at this ⊢
    linarith

theorem failN_succ_state (topic : String) :
    ∀ n, failN topic (n + 1)
      = ⟨BACKOFF_MAX_DELAY, [(topic, delaySeq (n + 1))], [(topic, n + 1)]⟩ := by
  intro n
  induction n with
  | zero =>
    show (match initial_tracker.record_failure topic with
          | .ok (_, t') => t'
          | .error t' => t') = _
    norm_num [RetryTracker.record_failure, initial_tracker, dictGet, dictInsert,
      delaySeq, BACKOFF_INITIAL_DELAY, BACKOFF_MAX_DELAY, BACKOFF_MULTIPLIER, min_def]
  | succ m ih =>
    show (match (failN topic (m + 1)).record_failure topic with
          | .ok (_, t') => t'
          | .error t' => t') = _
    rw [ih]
    by_cases h : BACKOFF_MAX_DELAY ≤ delaySeq (m + 1)
    · have h300 : delaySeq (m + 1) = BACKOFF_MAX_DELAY :=
        le_antisymm (delaySeq_le_max _) h
      have hss : delaySeq (m + 2) = BACKOFF_MAX_DELAY := by
        rw [delaySeq_succ, h300, min_eq_right]
        rw [BACKOFF_MAX_DELAY, BACKOFF_MULTIPLIER]
        norm_num
      simp only [RetryTracker.record_failure, dictGet, dictInsert, if_pos rfl,
        Option.isSome_some, if_true, Option.getD_some, hss, h300]
      rw [if_pos (le_refl BACKOFF_MAX_DELAY)]
    · push_neg at h
      simp only [RetryTracker.record_failure, dictGet, dictInsert, if_pos rfl,
        Option.isSome_some, if_true, Option.getD_some, if_neg (not_le.mpr h)]
      rw [delaySeq_succ (m + 1)]

theorem returnedDelay_eq (topic : String) (n : ℕ) :
    returnedDelay topic n
      = if BACKOFF_MAX_DELAY ≤ delaySeq n then none else some (delaySeq n) := by
  cases n with
  | zero =>
    rw [show delaySeq 0 = BACKOFF_INITIAL_DELAY from rfl]
    norm_num [returnedDelay, failN, RetryTracker.record_failure, initial_tracker,
      dictGet, dictInsert, BACKOFF_INITIAL_DELAY, BACKOFF_MAX_DELAY]
  | succ m =>
    rw [returnedDelay, failN_succ_state]
    by_cases h : BACKOFF_MAX_DELAY ≤ delaySeq (m + 1)
    · simp only [RetryTracker.record_failure, dictGet, dictInsert, if_pos rfl,
        Option.isSome_some, if_true, Option.getD_some, if_pos h]
    · simp only [RetryTracker.record_failure, dictGet, dictInsert, if_pos rfl,
        Option.isSome_some, if_true, Option.getD_some, if_neg h]

theorem current_delay_before_eq (topic : String) (n : ℕ) :
    current_delay_before topic n = delaySeq n := by
  cases n with
  | zero => rfl
  | succ m =>
    rw [current_delay_before, failN_succ_state]
    simp [dictGet]

theorem returnedDelay_some_eq {topic : String} {n : ℕ} {d : ℚ}
    (h : returnedDelay topic n = some d) : d = delaySeq n := by
  rw [returnedDelay_eq] at h
  by_cases hc : BACKOFF_MAX_DELAY ≤ delaySeq n
  · rw [if_pos hc] at h
    exact absurd h (by simp)
  · rw [if_neg hc] at h
    exact (Option.some_injective _ h).symm

/-- C3: for every topic, consecutive `record_failure` calls without an
intervening `record_success` return a non-decreasing sequence of waited
delays, each of them at most the configured ceiling; a call raises the
distinguished `BackoffLimitExceeded` condition exactly when the topic's
current delay has reached the ceiling, which with the configured constants
(0.5 s initial, ×2, 300 s ceiling) happens first — and then always — on
the eleventh call; and `record_success` clears the topic's entry, putting
the tracker back in its initial state. -/
theorem record_failure_backoff_spec (topic : String) :
    (∀ m n dm dn, m ≤ n → returnedDelay topic m = some dm →
        returnedDelay topic n = some dn → dm ≤ dn)
    ∧ (∀ n d, returnedDelay topic n = some d → d ≤ BACKOFF_MAX_DELAY)
    ∧ (∀ n, returnedDelay topic n = none ↔ BACKOFF_MAX_DELAY ≤ current_delay_before topic n)
    ∧ (∀ n, returnedDelay topic n = none ↔ 10 ≤ n)
    ∧ (∀ n, (failN topic n).record_success topic = initial_tracker) := by
  refine ⟨?_, ?_, ?_, ?_, ?_⟩
  · intro m n dm dn hmn hm hn
    rw [returnedDelay_some_eq hm, returnedDelay_some_eq hn]
    exact delaySeq_mono hmn
  · intro n d h
    rw [returnedDelay_some_eq h]
    exact delaySeq_le_max n
  · intro n
    rw [returnedDelay_eq, current_delay_before_eq]
    by_cases hc : BACKOFF_MAX_DELAY ≤ delaySeq n
    · simp [if_pos hc, hc]
    · simp [if_neg hc, hc]
  · intro n
    rw [returnedDelay_eq]
    by_cases hc : BACKOFF_MAX_DELAY ≤ delaySeq n
    · have : ¬ (delaySeq n < BACKOFF_MAX_DELAY) := not_lt.mpr hc
      rw [delaySeq_lt_max_iff] at this
      simp [if_pos hc, hc]
      omega
    · have : delaySeq n < BACKOFF_MAX_DELAY := not_le.mp hc
      rw [delaySeq_lt_max_iff] at this
      simp [if_neg hc]
      omega
  · intro n
    cases n with
    | zero =>
      simp [failN, RetryTracker.record_success, initial_tracker, dictGet]
    | succ m =>
      rw [failN_succ_state]
      simp [RetryTracker.record_success, dictGet, dictRemove, initial_tracker]

/-- Witness for `record_failure_backoff_spec`: the monotonicity conjunct
applied to the concrete topic `yahoo_finance_batch` at calls 1 and 2, whose
returned delays evaluate to 0.5 s and 1 s. -/
theorem record_failure_backoff_spec_witness :
    returnedDelay "yahoo_finance_batch" 0 = some (1 / 2)
    ∧ returnedDelay "yahoo_finance_batch" 1 = some 1
    ∧ (1 / 2 : ℚ) ≤ 1 := by
  have h0 : returnedDelay "yahoo_finance_batch" 0 = some (1 / 2) := by
    norm_num [returnedDelay, failN, RetryTracker.record_failure, initial_tracker,
      dictGet, dictInsert, BACKOFF_INITIAL_DELAY, BACKOFF_MAX_DELAY, BACKOFF_MULTIPLIER]
  have h1 : returnedDelay "yahoo_finance_batch" 1 = some 1 := by
    norm_num [returnedDelay, failN, RetryTracker.record_failure, initial_tracker,
      dictGet, dictInsert, BACKOFF_INITIAL_DELAY, BACKOFF_MAX_DELAY, BACKOFF_MULTIPLIER,
      min_def]
  exact ⟨h0, h1,
    (record_failure_backoff_spec "yahoo_finance_batch").1 0 1 (1 / 2) 1
      (by norm_num) h0 h1⟩

theorem mem_insertByCompletedAtDesc (row x : PipelineStepRow)
    (l : List PipelineStepRow) :
    x ∈ insertByCompletedAtDesc row l ↔ x = row ∨ x ∈ l := by
  induction l with
  | nil => simp [insertByCompletedAtDesc]
  | cons r rest ih =>
    rw [insertByCompletedAtDesc]
    by_cases h : r.completed_at ≤ row.completed_at
    · simp [if_pos h]
    · simp only [if_neg h, List.mem_cons, ih]
      tauto

theorem mem_sortByCompletedAtDesc (x : PipelineStepRow) (l : List PipelineStepRow) :
    x ∈ sortByCompletedAtDesc l ↔ x ∈ l := by
  induction l with
  | nil => simp [sortByCompletedAtDesc]
  | cons r rest ih =>
    rw [sortByCompletedAtDesc, mem_insertByCompletedAtDesc]
    simp [ih]

theorem sortByCompletedAtDesc_eq_nil (l : List PipelineStepRow) :
    sortByCompletedAtDesc l = [] ↔ l = [] := by
  cases l with
  | nil => simp [sortByCompletedAtDesc]
  | cons r rest =>
    constructor
    · intro h
      have : r ∈ sortByCompletedAtDesc (r :: rest) :=
        (mem_sortByCompletedAtDesc r _).mpr (List.mem_cons_self r rest)
      rw [h] at this
      exact absurd this (List.not_mem_nil r)
    · intro h
      exact absurd h (List.cons_ne_nil r rest)

theorem pairwise_insertByCompletedAtDesc (row : PipelineStepRow)
    (l : List PipelineStepRow)
    (hl : l.Pairwise (fun a b => b.completed_at ≤ a.completed_at)) :
    (insertByCompletedAtDesc row l).Pairwise
      (fun a b => b.completed_at ≤ a.completed_at) := by
  induction l with
  | nil => simp [insertByCompletedAtDesc]
  | cons r rest ih =>
    rw [insertByCompletedAtDesc]
    rcases List.pairwise_cons.mp hl with ⟨hr, hrest⟩
    by_cases h : r.completed_at ≤ row.completed_at
    · rw [if_pos h]
      refine List.pairwise_cons.mpr ⟨?_, hl⟩
      intro x hx
      rcases List.mem_cons.mp hx with h1 | h1
      · rw [h1]; exact h
      · exact le_trans (hr x h1) h
    · rw [if_neg h]
      refine List.pairwise_cons.mpr ⟨?_, ih hrest⟩
      intro x hx
      rcases (mem_insertByCompletedAtDesc row x rest).mp hx with h1 | h1
      · rw [h1]; exact le_of_not_le h
      · exact hr x h1

/-- The step query result is sorted by descending `completed_at`. -/
theorem pairwise_sortByCompletedAtDesc (l : List PipelineStepRow) :
    (sortByCompletedAtDesc l).Pairwise
      (fun a b => b.completed_at ≤ a.completed_at) := by
  induction l with
  | nil => simp [sortByCompletedAtDesc]
  | cons r rest ih => exact pairwise_insertByCompletedAtDesc r _ ih

/-- In a list sorted by descending `completed_at`, the head of a filter is
most recent among all entries satisfying the filter. -/
theorem filter_head_max {L : List PipelineStepRow} {p : PipelineStepRow → Bool}
    (hs : L.Pairwise (fun a b => b.completed_at ≤ a.completed_at))
    {s : PipelineStepRow} {rest : List PipelineStepRow}
    (hf : L.filter p = s :: rest) :
    ∀ x ∈ L, p x = true → x.completed_at ≤ s.completed_at := by
  induction L with
  | nil => simp at hf
  | cons a L' ih =>
    rcases List.pairwise_cons.mp hs with ⟨ha, hL'⟩
    by_cases hpa : p a = true
    · rw [List.filter_cons_of_pos hpa] at hf
      injection hf with h1 h2
      intro x hx hpx
      rcases List.mem_cons.mp hx with h3 | h3
      · rw [h3, h1]
      · rw [← h1]
        exact ha x h3
    · rw [List.filter_cons_of_neg (by simpa using hpa)] at hf
      intro x hx hpx
      rcases List.mem_cons.mp hx with h3 | h3
      · rw [h3] at hpx
        exact absurd hpx hpa
      · exact ih hL' hf x h3 hpx

theorem steps_for_date_eq_nil (db : DB) (d : String) :
    steps_for_date db d = [] ↔ ¬ ∃ r ∈ db.pipeline_steps, r.run_date = d := by
  rw [steps_for_date, sortByCompletedAtDesc_eq_nil, List.filter_eq_nil_iff]
  simp

theorem mem_steps_for_date {db : DB} {d : String} {r : PipelineStepRow} :
    r ∈ steps_for_date db d ↔ r ∈ db.pipeline_steps ∧ r.run_date = d := by
  rw [steps_for_date, mem_sortByCompletedAtDesc, List.mem_filter]
  simp

theorem filter_status_eq_nil (db : DB) (d st : String) :
    (steps_for_date db d).filter (fun s => decide (s.status = st)) = []
      ↔ ¬ ∃ r ∈ db.pipeline_steps, r.run_date = d ∧ r.status = st := by
  rw [List.filter_eq_nil_iff]
  constructor
  · rintro h ⟨r, hr, hd, hst⟩
    exact h r (mem_steps_for_date.mpr ⟨hr, hd⟩) (by simp [hst])
  · intro h r hr hst
    rw [mem_steps_for_date] at hr
    exact h ⟨r, hr.1, hr.2, by simpa using hst⟩

theorem mem_filter_status {db : DB} {d st : String} {r : PipelineStepRow} :
    r ∈ (steps_for_date db d).filter (fun s => decide (s.status = st))
      ↔ r ∈ db.pipeline_steps ∧ r.run_date = d ∧ r.status = st := by
  rw [List.mem_filter, mem_steps_for_date]
  simp [and_assoc]

theorem mem_completed_names (db : DB) (d nm : String) :
    nm ∈ completed_names db d
      ↔ ∃ r ∈ db.pipeline_steps, r.run_date = d ∧ r.status = "completed"
          ∧ r.step_name = nm := by
  rw [completed_names, List.mem_map]
  constructor
  · rintro ⟨r, hr, hnm⟩
    rw [mem_filter_status] at hr
    exact ⟨r, hr.1, hr.2.1, hr.2.2, hnm⟩
  · rintro ⟨r, hr, hd, hst, hnm⟩
    exact ⟨r, mem_filter_status.mpr ⟨hr, hd, hst⟩, hnm⟩

/-- Counterexample to C1 as stated: the claim says the state is `completed`
exactly when every one of the five required stage names has a completed row
for the date.  In `c1_db` all five stage names are among the completed rows
(the `completed_steps` list is exactly the five required names, most recent
first), yet `get_pipeline_state` classifies the date as `failed` because a
`failed` row is present. -/
theorem get_pipeline_state_not_completed_counterexample :
    (get_pipeline_state c1_db "2025-01-02").status = "failed"
    ∧ (get_pipeline_state c1_db "2025-01-02").completed_steps
        = ["generate-hugo", "build", "extract-metadata", "extract-prices", "sync-ftp"]
    ∧ (get_pipeline_state c1_db "2025-01-02").recommendation = "restart" := by
  refine ⟨?_, ?_, ?_⟩ <;> rfl

/-- C1 (amended): `get_pipeline_state(date)` classifies the day's step
ledger as: `idle` (recommendation `run`) when no step rows exist for the
date; `in_progress` (recommendation `resume`) when *some* row for the date
is in progress — the most recent such row supplies the current step and a
(current, total) progress pair with the stage-specific expected total;
`failed` (recommendation `restart`) when no row is in progress and some
row is failed; otherwise `completed` when every one of the five required
stage names has a completed row for the date, and `partial`
(recommendation `resume`) when some stages completed and some required
stage name lacks a completed row. -/
theorem get_pipeline_state_spec (db : DB) (d : String) :
    ((¬ ∃ r ∈ db.pipeline_steps, r.run_date = d) →
      get_pipeline_state db d = ⟨"idle", none, none, [], "run"⟩)
    ∧ ((∃ r ∈ db.pipeline_steps, r.run_date = d ∧ r.status = "in_progress") →
      (get_pipeline_state db d).status = "in_progress"
      ∧ (get_pipeline_state db d).recommendation = "resume"
      ∧ ∃ s ∈ db.pipeline_steps, s.run_date = d ∧ s.status = "in_progress"
          ∧ (∀ r ∈ db.pipeline_steps, r.run_date = d → r.status = "in_progress" →
              r.completed_at ≤ s.completed_at)
          ∧ (get_pipeline_state db d).current_step = some s.step_name
          ∧ (get_pipeline_state db d).progress
              = some (s.tickers_processed, get_step_total db s.step_name d))
    ∧ ((¬ ∃ r ∈ db.pipeline_steps, r.run_date = d ∧ r.status = "in_progress") →
       (∃ r ∈ db.pipeline_steps, r.run_date = d ∧ r.status = "failed") →
      (get_pipeline_state db d).status = "failed"
      ∧ (get_pipeline_state db d).recommendation = "restart")
    ∧ ((∃ r ∈ db.pipeline_steps, r.run_date = d) →
       (¬ ∃ r ∈ db.pipeline_steps, r.run_date = d ∧ r.status = "in_progress") →
       (¬ ∃ r ∈ db.pipeline_steps, r.run_date = d ∧ r.status = "failed") →
      ((∀ nm ∈ ALL_STEPS, ∃ r ∈ db.pipeline_steps,
          r.run_date = d ∧ r.status = "completed" ∧ r.step_name = nm) →
        (get_pipeline_state db d).status = "completed"
        ∧ (get_pipeline_state db d).recommendation = "idle")
      ∧ ((¬ ∀ nm ∈ ALL_STEPS, ∃ r ∈ db.pipeline_steps,
            r.run_date = d ∧ r.status = "completed" ∧ r.step_name = nm) →
        (get_pipeline_state db d).status = "partial"
        ∧ (get_pipeline_state db d).recommendation = "resume")) := by
  refine ⟨?_, ?_, ?_, ?_⟩
  · intro h
    rw [← steps_for_date_eq_nil] at h
    rw [get_pipeline_state]
    simp only [h, if_pos]
  · intro h
    have hne : steps_for_date db d ≠ [] := by
      rw [Ne, steps_for_date_eq_nil]
      push_neg
      obtain ⟨r, hr, hd, _⟩ := h
      exact ⟨r, hr, hd⟩
    have hip : (steps_for_date db d).filter (fun s => decide (s.status = "in_progress")) ≠ [] := by
      rw [Ne, filter_status_eq_nil]
      push_neg
      obtain ⟨r, hr, hd, hst⟩ := h
      exact ⟨r, hr, hd, hst⟩
    obtain ⟨s, rest, hcons⟩ := List.exists_cons_of_ne_nil hip
    have hs := mem_filter_status.mp (hcons ▸ List.mem_cons_self s rest)
    have hstate : get_pipeline_state db d
        = ⟨"in_progress", some s.step_name,
            some (s.tickers_processed, get_step_total db s.step_name d),
            completed_names db d, "resume"⟩ := by
      rw [get_pipeline_state]
      simp only [if_neg hne, hcons]
    have hmax : ∀ r ∈ db.pipeline_steps, r.run_date = d → r.status = "in_progress" →
        r.completed_at ≤ s.completed_at := by
      intro r hr hd hst
      exact filter_head_max (pairwise_sortByCompletedAtDesc _) hcons r
        (mem_steps_for_date.mpr ⟨hr, hd⟩) (by simp [hst])
    rw [hstate]
    exact ⟨rfl, rfl, s, hs.1, hs.2.1, hs.2.2, hmax, rfl, rfl⟩
  · intro hnip hf
    have hne : steps_for_date db d ≠ [] := by
      rw [Ne, steps_for_date_eq_nil]
      push_neg
      obtain ⟨r, hr, hd, _⟩ := hf
      exact ⟨r, hr, hd⟩
    have hip : (steps_for_date db d).filter (fun s => decide (s.status = "in_progress")) = [] :=
      (filter_status_eq_nil db d "in_progress").mpr hnip
    have hfl : (steps_for_date db d).filter (fun s => decide (s.status = "failed")) ≠ [] := by
      rw [Ne, filter_status_eq_nil]
      push_neg
      obtain ⟨r, hr, hd, hst⟩ := hf
      exact ⟨r, hr, hd, hst⟩
    obtain ⟨f, rest, hcons⟩ := List.exists_cons_of_ne_nil hfl
    have hstate : get_pipeline_state db d
        = ⟨"failed", some f.step_name, none, completed_names db d, "restart"⟩ := by
      rw [get_pipeline_state]
      simp only [if_neg hne, hip, hcons]
    rw [hstate]
    exact ⟨rfl, rfl⟩
  · intro hex hnip hnf
    have hne : steps_for_date db d ≠ [] := by
      rw [Ne, steps_for_date_eq_nil]
      push_neg
      exact hex
    have hip : (steps_for_date db d).filter (fun s => decide (s.status = "in_progress")) = [] :=
      (filter_status_eq_nil db d "in_progress").mpr hnip
    have hfl : (steps_for_date db d).filter (fun s => decide (s.status = "failed")) = [] :=
      (filter_status_eq_nil db d "failed").mpr hnf
    constructor
    · intro hall
      have hcond : ∀ s ∈ ALL_STEPS, s ∈ completed_names db d := by
        intro nm hnm
        exact (mem_completed_names db d nm).mpr (hall nm hnm)
      have hstate : get_pipeline_state db d
          = ⟨"completed", none, none, completed_names db d, "idle"⟩ := by
        rw [get_pipeline_state]
        simp only [if_neg hne, hip, hfl, if_pos hcond]
      rw [hstate]
      exact ⟨rfl, rfl⟩
    · intro hnall
      have hcond : ¬ ∀ s ∈ ALL_STEPS, s ∈ completed_names db d := by
        intro hc
        exact hnall (fun nm hnm => (mem_completed_names db d nm).mp (hc nm hnm))
      have hstate : get_pipeline_state db d
          = ⟨"partial", none, none, completed_names db d, "resume"⟩ := by
        rw [get_pipeline_state]
        simp only [if_neg hne, hip, hfl, if_neg hcond]
      rw [hstate]
      exact ⟨rfl, rfl⟩

/-- Witness for `get_pipeline_state_spec`: on a one-row ledger holding an
in-progress `extract-prices` row, the classification is `in_progress` with
recommendation `resume`. -/
theorem get_pipeline_state_spec_witness :
    (get_pipeline_state
      { tickers := [⟨"AAPL", "Apple Inc. Common Stock", "NASDAQ", false⟩]
        daily_metrics := []
        strategy_scores := []
        pipeline_steps := [⟨"extract-prices", "2025-01-02", 1, 0, "in_progress"⟩]
        pipeline_runs := []
        ticker_sync_history := []
        sync_history := [] } "2025-01-02").status = "in_progress" := by
  have h := (get_pipeline_state_spec
    { tickers := [⟨"AAPL", "Apple Inc. Common Stock", "NASDAQ", false⟩]
      daily_metrics := []
      strategy_scores := []
      pipeline_steps := [⟨"extract-prices", "2025-01-02", 1, 0, "in_progress"⟩]
      pipeline_runs := []
      ticker_sync_history := []
      sync_history := [] } "2025-01-02").2.1
  exact (h ⟨⟨"extract-prices", "2025-01-02", 1, 0, "in_progress"⟩, by
    simp [List.mem_singleton]⟩).1

theorem mem_insertAsc (s x : String) (l : List String) :
    x ∈ insertAsc s l ↔ x = s ∨ x ∈ l := by
  induction l with
  | nil => simp [insertAsc]
  | cons y rest ih =>
    rw [insertAsc]
    split_ifs with h
    · simp
    · simp only [List.mem_cons, ih]
      tauto

theorem mem_sortAsc (x : String) (l : List String) : x ∈ sortAsc l ↔ x ∈ l := by
  induction l with
  | nil => simp [sortAsc]
  | cons y rest ih =>
    rw [sortAsc, mem_insertAsc]
    simp [ih]

theorem batchesAux_join {α : Type} (size : ℕ) (hsize : 1 ≤ size) :
    ∀ fuel (l : List α), l.length ≤ fuel → (batchesAux size fuel l).flatten = l := by
  intro fuel
  induction fuel with
  | zero =>
    intro l hl
    rw [List.length_eq_zero.mp (Nat.le_zero.mp hl)]
    rfl
  | succ f ih =>
    intro l hl
    cases l with
    | nil => rfl
    | cons a rest =>
      have hstep : batchesAux size (f + 1) (a :: rest)
          = (a :: rest).take size :: batchesAux size f ((a :: rest).drop size) := rfl
      rw [hstep, List.flatten_cons, ih ((a :: rest).drop size) ?_, List.take_append_drop]
      rw [List.length_drop]
      have h1 : (a :: rest).length ≤ f + 1 := hl
      omega

theorem batches_join {α : Type} (size : ℕ) (hsize : 1 ≤ size) (l : List α) :
    (batches size l).flatten = l :=
  batchesAux_join size hsize l.length l le_rfl

/-- C2: the Pass 1 pending work set is exactly the set of non-ETF tickers
still lacking a priced `daily_metrics` row for today — so a re-invocation
after an interruption processes only the remaining pending symbols: the
batches partition the pending list, and a symbol whose priced row already
exists for today is in no batch. -/
theorem extract_prices_pending_spec (db : DB) (today : String) :
    (∀ s, s ∈ pending_price_symbols db today ↔
      ((∃ t ∈ db.tickers, t.symbol = s ∧ t.is_etf = false)
        ∧ ¬ ∃ m ∈ db.daily_metrics, m.symbol = s ∧ m.date = today ∧ m.price.isSome))
    ∧ (List.flatten (batches PRICE_BATCH_SIZE (pending_price_symbols db today))
        = pending_price_symbols db today)
    ∧ (∀ s m, m ∈ db.daily_metrics → m.symbol = s → m.date = today →
        m.price.isSome → s ∉ pending_price_symbols db today) := by
  have hmem : ∀ s, s ∈ pending_price_symbols db today ↔
      ((∃ t ∈ db.tickers, t.symbol = s ∧ t.is_etf = false)
        ∧ ¬ ∃ m ∈ db.daily_metrics, m.symbol = s ∧ m.date = today ∧ m.price.isSome) := by
    intro s
    rw [pending_price_symbols, mem_sortAsc, List.mem_map]
    constructor
    · rintro ⟨t, ht, hsym⟩
      rw [List.mem_filter] at ht
      obtain ⟨htick, hcond⟩ := ht
      rw [Bool.and_eq_true, Bool.not_eq_true', Bool.not_eq_true'] at hcond
      refine ⟨⟨t, htick, hsym, hcond.1⟩, ?_⟩
      rintro ⟨m, hm, hms, hmd, hmp⟩
      have : has_price_row db today t.symbol = true := by
        rw [has_price_row, List.any_eq_true]
        exact ⟨m, hm, by simp [hms, hsym, hmd, hmp]⟩
      rw [this] at hcond
      exact absurd hcond.2 (by simp)
    · rintro ⟨⟨t, htick, hsym, hetf⟩, hnone⟩
      refine ⟨t, ?_, hsym⟩
      rw [List.mem_filter]
      refine ⟨htick, ?_⟩
      rw [Bool.and_eq_true, Bool.not_eq_true', Bool.not_eq_true']
      refine ⟨hetf, ?_⟩
      rw [Bool.eq_false_iff]
      intro hpr
      rw [has_price_row, List.any_eq_true] at hpr
      obtain ⟨m, hm, hcond⟩ := hpr
      rw [Bool.and_eq_true, Bool.and_eq_true] at hcond
      exact hnone ⟨m, hm, by simpa [hsym] using decide_eq_true_eq.mp hcond.1.1,
        decide_eq_true_eq.mp hcond.1.2, hcond.2⟩
  refine ⟨hmem, batches_join PRICE_BATCH_SIZE (by norm_num [PRICE_BATCH_SIZE]) _, ?_⟩
  intro s m hm hms hmd hmp hpend
  exact ((hmem s).mp hpend).2 ⟨m, hm, hms, hmd, hmp⟩

/-- Witness for `extract_prices_pending_spec`: in a store where AAPL
already has a priced row for today and MSFT does not, AAPL is not in the
pending set (and the pending set is exactly [MSFT]). -/
theorem extract_prices_pending_spec_witness :
    "AAPL" ∉ pending_price_symbols
      { tickers := [⟨"AAPL", "Apple Inc. Common Stock", "NASDAQ", false⟩,
                    ⟨"MSFT", "Microsoft Corporation Common Stock", "NASDAQ", false⟩]
        daily_metrics := [⟨"AAPL", "2025-01-02", some 150, some 50000000,
          none, none, none, none, none⟩]
        strategy_scores := []
        pipeline_steps := []
        pipeline_runs := []
        ticker_sync_history := []
        sync_history := [] } "2025-01-02"
    ∧ pending_price_symbols
      { tickers := [⟨"AAPL", "Apple Inc. Common Stock", "NASDAQ", false⟩,
                    ⟨"MSFT", "Microsoft Corporation Common Stock", "NASDAQ", false⟩]
        daily_metrics := [⟨"AAPL", "2025-01-02", some 150, some 50000000,
          none, none, none, none, none⟩]
        strategy_scores := []
        pipeline_steps := []
        pipeline_runs := []
        ticker_sync_history := []
        sync_history := [] } "2025-01-02" = ["MSFT"] := by
  constructor
  · exact (extract_prices_pending_spec _ "2025-01-02").2.2 "AAPL"
      ⟨"AAPL", "2025-01-02", some 150, some 50000000, none, none, none, none, none⟩
      (by simp) rfl rfl rfl
  · rfl

/-- Rows satisfying the kept-side predicate survive a `DELETE` embedded as
`List.filter`. -/
theorem mem_filter_decide {T : Type} {l : List T} {p : T → Prop} [DecidablePred p]
    {r : T} (hr : r ∈ l) (hp : p r) : r ∈ l.filter (fun x => decide (p x)) := by
  rw [List.mem_filter]
  exact ⟨hr, by simpa using hp⟩

/-- C10: cleaning / resetting the pipeline for a target date deletes only
rows belonging to that date: for every step-name argument,
`clean_today_data` (and the `reset` command) leaves every `daily_metrics`,
`strategy_scores`, `pipeline_steps` and `pipeline_runs` row of any other
date unchanged, leaves every `ticker_sync_history` row whose `run_id` does
not belong to a pipeline run of the target date unchanged, and never
deletes a row of the `tickers` table. -/
theorem clean_today_data_frame (step_name : Option String) (target_date : String) (db : DB) :
    ((clean_today_data step_name target_date db).tickers = db.tickers)
    ∧ (∀ r ∈ db.daily_metrics, r.date ≠ target_date →
        r ∈ (clean_today_data step_name target_date db).daily_metrics)
    ∧ (∀ r ∈ db.strategy_scores, r.date ≠ target_date →
        r ∈ (clean_today_data step_name target_date db).strategy_scores)
    ∧ (∀ r ∈ db.pipeline_steps, r.run_date ≠ target_date →
        r ∈ (clean_today_data step_name target_date db).pipeline_steps)
    ∧ (∀ r ∈ db.pipeline_runs, r.run_date ≠ target_date →
        r ∈ (clean_today_data step_name target_date db).pipeline_runs)
    ∧ (∀ r ∈ db.ticker_sync_history, r.run_id ∉ run_ids_for_date db target_date →
        r ∈ (clean_today_data step_name target_date db).ticker_sync_history)
    ∧ ((cli_reset target_date db).tickers = db.tickers)
    ∧ (∀ r ∈ db.daily_metrics, r.date ≠ target_date →
        r ∈ (cli_reset target_date db).daily_metrics)
    ∧ (∀ r ∈ db.strategy_scores, r.date ≠ target_date →
        r ∈ (cli_reset target_date db).strategy_scores)
    ∧ (∀ r ∈ db.pipeline_steps, r.run_date ≠ target_date →
        r ∈ (cli_reset target_date db).pipeline_steps) := by
  refine ⟨?_, ?_, ?_, ?_, ?_, ?_, rfl, ?_, ?_, ?_⟩
  · cases step_name with
    | none => rfl
    | some nm =>
      rw [clean_today_data]
      split_ifs <;> rfl
  · intro r hr hne
    cases step_name with
    | none => exact mem_filter_decide hr hne
    | some nm =>
      rw [clean_today_data]
      split_ifs <;> first
        | exact hr
        | exact mem_filter_decide hr hne
  · intro r hr hne
    cases step_name with
    | none => exact mem_filter_decide hr hne
    | some nm =>
      rw [clean_today_data]
      split_ifs <;> first
        | exact hr
        | exact mem_filter_decide hr hne
  · intro r hr hne
    cases step_name with
    | none => exact mem_filter_decide hr hne
    | some nm =>
      rw [clean_today_data]
      split_ifs <;> first
        | exact hr
        | exact mem_filter_decide hr (fun hc => hne hc.1)
  · intro r hr hne
    cases step_name with
    | none => exact mem_filter_decide hr hne
    | some nm =>
      rw [clean_today_data]
      split_ifs <;> exact hr
  · intro r hr hnid
    cases step_name with
    | none => exact mem_filter_decide hr hnid
    | some nm =>
      rw [clean_today_data]
      split_ifs <;> first
        | exact hr
        | exact mem_filter_decide hr (fun hc => hnid hc.1)
  · intro r hr hne
    exact mem_filter_decide hr hne
  · intro r hr hne
    exact mem_filter_decide hr hne
  · intro r hr hne
    exact mem_filter_decide hr hne

/-- Witness for `clean_today_data_frame`: cleaning 2025-01-02 with no step
name preserves the ticker table and a daily-metrics row dated
2025-01-01. -/
theorem clean_today_data_frame_witness :
    (clean_today_data none "2025-01-02"
      { tickers := [⟨"AAPL", "Apple Inc. Common Stock", "NASDAQ", false⟩]
        daily_metrics := [⟨"AAPL", "2025-01-01", some 150, some 50000000,
          none, none, none, none, none⟩,
          ⟨"AAPL", "2025-01-02", some 151, some 40000000,
          none, none, none, none, none⟩]
        strategy_scores := []
        pipeline_steps := []
        pipeline_runs := []
        ticker_sync_history := []
        sync_history := [] }).tickers
      = [⟨"AAPL", "Apple Inc. Common Stock", "NASDAQ", false⟩]
    ∧ (⟨"AAPL", "2025-01-01", some 150, some 50000000, none, none, none, none, none⟩
        : DailyMetricRow)
      ∈ (clean_today_data none "2025-01-02"
      { tickers := [⟨"AAPL", "Apple Inc. Common Stock", "NASDAQ", false⟩]
        daily_metrics := [⟨"AAPL", "2025-01-01", some 150, some 50000000,
          none, none, none, none, none⟩,
          ⟨"AAPL", "2025-01-02", some 151, some 40000000,
          none, none, none, none, none⟩]
        strategy_scores := []
        pipeline_steps := []
        pipeline_runs := []
        ticker_sync_history := []
        sync_history := [] }).daily_metrics := by
  constructor
  · exact (clean_today_data_frame none "2025-01-02" _).1
  · exact (clean_today_data_frame none "2025-01-02" _).2.1
      ⟨"AAPL", "2025-01-01", some 150, some 50000000, none, none, none, none, none⟩
      (by simp) (by decide)

/-- Counterexample to C6 as stated: the claim says the stored RSI is null
whenever the loss average is zero (never 100 by division).  On a
15-observation strictly increasing close series the loss average is zero
and the gain average positive, and the code stores RSI = 100 (pandas
`gain/0 = inf` is not NaN, so the `pd.isna` guard does not fire). -/
theorem rsi_14_zero_loss_counterexample :
    rsi_loss up_closes = 0 ∧ rsi_gain up_closes = 1 ∧ rsi_14 up_closes = some 100 := by
  refine ⟨?_, ?_, ?_⟩
  · norm_num [rsi_loss, last_deltas_14, up_closes, max_def]
  · norm_num [rsi_gain, last_deltas_14, up_closes, max_def]
  · norm_num [rsi_14, rsi_loss, rsi_gain, last_deltas_14, up_closes, max_def]

/-- C6 (amended): the derived 14-day RSI equals `100 − 100/(1+RS)` with
`RS` the rolling 14-day mean of positive deltas divided by the rolling
14-day mean of absolute negative deltas, where the `where` masks replace
the leading diff NaN by 0 so that the window is already complete at
exactly 14 observations; the stored RSI is null whenever fewer than 14
observations exist or both the gain and loss averages are zero; when the
loss average is zero but the gain average is not, the division yields
infinity and the stored RSI is 100, not null. -/
theorem rsi_14_spec (closes : List ℚ) :
    (closes.length < 14 → rsi_14 closes = none)
    ∧ (14 ≤ closes.length → rsi_loss closes = 0 → rsi_gain closes = 0 →
        rsi_14 closes = none)
    ∧ (14 ≤ closes.length → rsi_loss closes = 0 → rsi_gain closes ≠ 0 →
        rsi_14 closes = some 100)
    ∧ (14 ≤ closes.length → rsi_loss closes ≠ 0 →
        rsi_14 closes
          = some (100 - 100 / (1 + rsi_gain closes / rsi_loss closes))) := by
  refine ⟨?_, ?_, ?_, ?_⟩
  · intro h
    rw [rsi_14, if_pos h]
  · intro h hl hg
    rw [rsi_14, if_neg (by omega), if_pos ⟨hl, hg⟩]
  · intro h hl hg
    rw [rsi_14, if_neg (by omega), if_neg (fun hc => hg hc.2), if_pos hl]
  · intro h hl
    rw [rsi_14, if_neg (by omega), if_neg (fun hc => hl hc.1), if_neg hl]

/-- Witness for `rsi_14_spec`: the zero-loss conjunct on the increasing
series `up_closes`, and the finite-RS conjunct on the 14-close alternating
series `alt_closes`, whose stored RSI is the numeric 700/13 ≈ 53.8. -/
theorem rsi_14_spec_witness :
    rsi_14 up_closes = some 100 ∧ rsi_14 alt_closes = some (700 / 13) := by
  constructor
  · have hlen : 14 ≤ up_closes.length := by norm_num [up_closes]
    have hl : rsi_loss up_closes = 0 := by
      norm_num [rsi_loss, last_deltas_14, up_closes, max_def]
    have hg : rsi_gain up_closes ≠ 0 := by
      norm_num [rsi_gain, last_deltas_14, up_closes, max_def]
    exact (rsi_14_spec up_closes).2.2.1 hlen hl hg
  · have hlen : 14 ≤ alt_closes.length := by norm_num [alt_closes]
    have hl : rsi_loss alt_closes = 3 / 7 := by
      norm_num [rsi_loss, last_deltas_14, alt_closes, max_def]
    have hg : rsi_gain alt_closes = 1 / 2 := by
      norm_num [rsi_gain, last_deltas_14, alt_closes, max_def]
    have h := (rsi_14_spec alt_closes).2.2.2 hlen (by rw [hl]; norm_num)
    rw [h, hl, hg]
    norm_num

/-- Counterexample to C7 as stated: with X = (yield 0.02, beta 1.0) and
Y = (yield 0.08, beta 0.5), Y's raw dividend_daddy score (83) exceeds X's
(52), but pandas percentile rank over two values is rank/n, so Build
stores 50 for X, not the claimed 0. -/
theorem dividend_daddy_pct_counterexample :
    pct_score
      [dividend_daddy_raw (some (2 / 100)) (some 1),
       dividend_daddy_raw (some (8 / 100)) (some (1 / 2))]
      (dividend_daddy_raw (some (2 / 100)) (some 1)) = 50
    ∧ (50 : ℤ) ≠ 0 := by
  have hX : dividend_daddy_raw (some (2 / 100)) (some 1) = 52 := by
    rw [dividend_daddy_raw]
    simp only [Option.getD_some]
    rw [abs_of_pos] <;> norm_num
  have hY : dividend_daddy_raw (some (8 / 100)) (some (1 / 2)) = 83 := by
    rw [dividend_daddy_raw]
    simp only [Option.getD_some]
    rw [abs_of_pos] <;> norm_num
  rw [hX, hY]
  constructor
  · norm_num [pct_score, rank_pct, List.filter]
  · norm_num

/-- C7 (amended): for the two-symbol universe where X has dividend_yield
0.02 and beta 1.0 and Y has dividend_yield 0.08 and beta 0.5, Y's raw
dividend_daddy score exceeds X's, and after Build's percentile ranking
across just (X, Y), Y's stored dividend_daddy score is 100 and X's is 50
(pandas percentile rank is average-rank/n, which maps the smaller of two
distinct values to 1/2, not 0). -/
theorem dividend_daddy_two_symbol_spec :
    dividend_daddy_raw (some (2 / 100)) (some 1)
        < dividend_daddy_raw (some (8 / 100)) (some (1 / 2))
    ∧ pct_score
        [dividend_daddy_raw (some (2 / 100)) (some 1),
         dividend_daddy_raw (some (8 / 100)) (some (1 / 2))]
        (dividend_daddy_raw (some (8 / 100)) (some (1 / 2))) = 100
    ∧ pct_score
        [dividend_daddy_raw (some (2 / 100)) (some 1),
         dividend_daddy_raw (some (8 / 100)) (some (1 / 2))]
        (dividend_daddy_raw (some (2 / 100)) (some 1)) = 50 := by
  have hX : dividend_daddy_raw (some (2 / 100)) (some 1) = 52 := by
    rw [dividend_daddy_raw]
    simp only [Option.getD_some]
    rw [abs_of_pos] <;> norm_num
  have hY : dividend_daddy_raw (some (8 / 100)) (some (1 / 2)) = 83 := by
    rw [dividend_daddy_raw]
    simp only [Option.getD_some]
    rw [abs_of_pos] <;> norm_num
  rw [hX, hY]
  refine ⟨?_, ?_, ?_⟩
  · norm_num
  · norm_num [pct_score, rank_pct, List.filter]
  · norm_num [pct_score, rank_pct, List.filter]

theorem mem_insert_tickers (rows : List TickerRow) :
    ∀ base t, t ∈ (insert_tickers base rows).1 → t ∈ base ∨ t ∈ rows := by
  induction rows with
  | nil =>
    intro base t h
    exact Or.inl h
  | cons r rest ih =>
    intro base t h
    rw [insert_tickers] at h
    by_cases hc : base.any (fun x => decide (x.symbol = r.symbol)) = true
    · rw [if_pos hc] at h
      rcases ih base t h with h1 | h1
      · exact Or.inl h1
      · exact Or.inr (List.mem_cons_of_mem _ h1)
    · rw [if_neg hc] at h
      change t ∈ (insert_tickers (base ++ [r]) rest).1 at h
      rcases ih (base ++ [r]) t h with h1 | h1
      · rcases List.mem_append.mp h1 with h2 | h2
        · exact Or.inl h2
        · rw [List.mem_singleton] at h2
          rw [h2]
          exact Or.inr (List.mem_cons_self r rest)
      · exact Or.inr (List.mem_cons_of_mem _ h1)

/-- The step writes of `sync_ftp` are either empty or one `completed`
row. -/
theorem sync_ftp_writes_shape (db : DB) (today : String) (run : FtpRun) :
    (sync_ftp db today run).step_writes = []
    ∨ ∃ n, (sync_ftp db today run).step_writes = [("sync-ftp", n, "completed")] := by
  rw [sync_ftp]
  split_ifs
  · exact Or.inl rfl
  · exact Or.inl rfl
  · exact Or.inr ⟨_, rfl⟩

/-- Counterexample to C5 as stated: with the NASDAQ listing file
unparseable (and the other feed fine), the claim says the stage is
stage-fatal and does not record itself as completed; but the code catches
and logs the parse error, continues with the other feed, does not exit
fatally, and records a `completed` step row for the day. -/
theorem sync_ftp_unparseable_counterexample :
    (sync_ftp empty_db "2025-01-02" c5_run).fatal = false
    ∧ (sync_ftp empty_db "2025-01-02" c5_run).step_writes
        = [("sync-ftp", 1, "completed")] := by
  constructor <;> rfl

/-- C5 (amended): if a downloaded exchange-listing file — either
`nasdaqlisted.txt` or `otherlisted.txt` — is unparseable, no row of that
feed is inserted (every ticker in the resulting store was already present
or comes from the feed that did parse), but the error does not surface:
the stage is not fatal, it still writes the synced-today marker, and it
records itself as `completed` for the day; the same holds when both files
are unparseable (zero tickers added).  Only a failure of the download
itself is stage-fatal: then nothing is inserted and no step row is
recorded. -/
theorem sync_ftp_unparseable_spec (db : DB) (today : String)
    (nasdaq_rows : List NasdaqRow) (other_rows : List OtherRow)
    (hns : db.sync_history.any (fun h => decide (h.sync_date = today)) = false) :
    ((sync_ftp db today ⟨true, none, some other_rows⟩).fatal = false)
    ∧ (∀ t ∈ (sync_ftp db today ⟨true, none, some other_rows⟩).db.tickers,
        t ∈ db.tickers ∨ ∃ r ∈ other_rows, t = other_ticker r)
    ∧ ((sync_ftp db today ⟨true, none, some other_rows⟩).step_writes
        = [("sync-ftp",
            (insert_tickers db.tickers
              ((other_rows.filter other_keep).map other_ticker)).2,
            "completed")])
    ∧ (∃ h ∈ (sync_ftp db today ⟨true, none, some other_rows⟩).db.sync_history,
        h.sync_date = today)
    ∧ ((sync_ftp db today ⟨true, some nasdaq_rows, none⟩).fatal = false)
    ∧ (∀ t ∈ (sync_ftp db today ⟨true, some nasdaq_rows, none⟩).db.tickers,
        t ∈ db.tickers ∨ ∃ r ∈ nasdaq_rows, t = nasdaq_ticker r)
    ∧ ((sync_ftp db today ⟨true, some nasdaq_rows, none⟩).step_writes
        = [("sync-ftp",
            (insert_tickers db.tickers
              ((nasdaq_rows.filter nasdaq_keep).map nasdaq_ticker)).2,
            "completed")])
    ∧ (∃ h ∈ (sync_ftp db today ⟨true, some nasdaq_rows, none⟩).db.sync_history,
        h.sync_date = today)
    ∧ ((sync_ftp db today ⟨true, none, none⟩).fatal = false
        ∧ (sync_ftp db today ⟨true, none, none⟩).db.tickers = db.tickers
        ∧ (sync_ftp db today ⟨true, none, none⟩).step_writes
            = [("sync-ftp", 0, "completed")]
        ∧ ∃ h ∈ (sync_ftp db today ⟨true, none, none⟩).db.sync_history,
            h.sync_date = today)
    ∧ ((sync_ftp db today ⟨false, none, some other_rows⟩).fatal = true
        ∧ (sync_ftp db today ⟨false, none, some other_rows⟩).db = db
        ∧ (sync_ftp db today ⟨false, none, some other_rows⟩).step_writes = []) := by
  have hresA : sync_ftp db today ⟨true, none, some other_rows⟩
      = ⟨{ db with
            tickers := (insert_tickers db.tickers
              ((other_rows.filter other_keep).map other_ticker)).1
            sync_history := db.sync_history.filter
                (fun h => decide (h.sync_date ≠ today))
              ++ [⟨today, 0 + (insert_tickers db.tickers
                    ((other_rows.filter other_keep).map other_ticker)).2⟩] },
          [("sync-ftp",
            0 + (insert_tickers db.tickers
              ((other_rows.filter other_keep).map other_ticker)).2,
            "completed")], false⟩ := by
    rw [sync_ftp, if_neg (by rw [hns]; simp), if_neg (by simp)]
  have hresB : sync_ftp db today ⟨true, some nasdaq_rows, none⟩
      = ⟨{ db with
            tickers := (insert_tickers db.tickers
              ((nasdaq_rows.filter nasdaq_keep).map nasdaq_ticker)).1
            sync_history := db.sync_history.filter
                (fun h => decide (h.sync_date ≠ today))
              ++ [⟨today, (insert_tickers db.tickers
                    ((nasdaq_rows.filter nasdaq_keep).map nasdaq_ticker)).2 + 0⟩] },
          [("sync-ftp",
            (insert_tickers db.tickers
              ((nasdaq_rows.filter nasdaq_keep).map nasdaq_ticker)).2 + 0,
            "completed")], false⟩ := by
    rw [sync_ftp, if_neg (by rw [hns]; simp), if_neg (by simp)]
  have hresC : sync_ftp db today ⟨true, none, none⟩
      = ⟨{ db with
            sync_history := db.sync_history.filter
                (fun h => decide (h.sync_date ≠ today))
              ++ [⟨today, 0 + 0⟩] },
          [("sync-ftp", 0 + 0, "completed")], false⟩ := by
    rw [sync_ftp, if_neg (by rw [hns]; simp), if_neg (by simp)]
  have hfatal : sync_ftp db today ⟨false, none, some other_rows⟩ = ⟨db, [], true⟩ := by
    rw [sync_ftp, if_neg (by rw [hns]; simp), if_pos rfl]
  refine ⟨?_, ?_, ?_, ?_, ?_, ?_, ?_, ?_, ⟨?_, ?_, ?_, ?_⟩, ?_, ?_, ?_⟩
  · rw [hresA]
  · intro t ht
    rw [hresA] at ht
    rcases mem_insert_tickers _ _ _ ht with h1 | h1
    · exact Or.inl h1
    · rw [List.mem_map] at h1
      obtain ⟨r, hr, hrt⟩ := h1
      exact Or.inr ⟨r, List.mem_of_mem_filter hr, hrt.symm⟩
  · rw [hresA]
    simp
  · rw [hresA]
    refine ⟨⟨today, 0 + (insert_tickers db.tickers
      ((other_rows.filter other_keep).map other_ticker)).2⟩, ?_, rfl⟩
    simp
  · rw [hresB]
  · intro t ht
    rw [hresB] at ht
    rcases mem_insert_tickers _ _ _ ht with h1 | h1
    · exact Or.inl h1
    · rw [List.mem_map] at h1
      obtain ⟨r, hr, hrt⟩ := h1
      exact Or.inr ⟨r, List.mem_of_mem_filter hr, hrt.symm⟩
  · rw [hresB]
    simp
  · rw [hresB]
    refine ⟨⟨today, (insert_tickers db.tickers
      ((nasdaq_rows.filter nasdaq_keep).map nasdaq_ticker)).2 + 0⟩, ?_, rfl⟩
    simp
  · rw [hresC]
  · rw [hresC]
  · rw [hresC]
  · rw [hresC]
    refine ⟨⟨today, 0 + 0⟩, ?_, rfl⟩
    simp
  · rw [hfatal]
  · rw [hfatal]
  · rw [hfatal]

/-- Witness for `sync_ftp_unparseable_spec`: the not-fatal conjuncts for
each unparseable feed on an empty store with concrete parse outcomes. -/
theorem sync_ftp_unparseable_spec_witness :
    (sync_ftp empty_db "2025-01-02" ⟨true, none,
      some [⟨"MSFT", "Microsoft Corporation Common Stock", "N", "N", "N"⟩]⟩).fatal
      = false
    ∧ (sync_ftp empty_db "2025-01-02" ⟨true,
        some [⟨"AAPL", "Apple Inc. Common Stock", "N", "N", "N"⟩], none⟩).fatal
      = false := by
  constructor
  · exact (sync_ftp_unparseable_spec empty_db "2025-01-02"
      [⟨"AAPL", "Apple Inc. Common Stock", "N", "N", "N"⟩]
      [⟨"MSFT", "Microsoft Corporation Common Stock", "N", "N", "N"⟩] (by rfl)).1
  · exact (sync_ftp_unparseable_spec empty_db "2025-01-02"
      [⟨"AAPL", "Apple Inc. Common Stock", "N", "N", "N"⟩]
      [⟨"MSFT", "Microsoft Corporation Common Stock", "N", "N", "N"⟩]
        (by rfl)).2.2.2.2.1

/-- Counterexample to C4 as stated: Directory Sync and Build both do their
work and then record only a single `completed` step row — neither trace
contains the claimed initial row with status `in_progress` and processed
0. -/
theorem stage_start_write_counterexample :
    (sync_ftp empty_db "2025-01-02" c5_run).step_writes
        = [("sync-ftp", 1, "completed")]
    ∧ build_assets_writes c4_db "2025-01-02" = [("build", 1, "completed")] := by
  constructor <;> rfl

/-- C4 (amended): the two extraction passes write a PipelineStep row with
status `in_progress` and processed 0 before doing any work (it is the
first step write of their traces, for every store and batch outcome);
Directory Sync and Build never write an `in_progress` row — every step row
they record has status `completed`. -/
theorem stage_start_write_spec (db : DB) (today : String) :
    (∀ results, (extract_prices_writes db today results).head?
        = some ("extract-prices", 0, "in_progress"))
    ∧ (∀ results, (extract_metadata_writes db today results).head?
        = some ("extract-metadata", 0, "in_progress"))
    ∧ (∀ run, ∀ w ∈ (sync_ftp db today run).step_writes, w.2.2 = "completed")
    ∧ (∀ w ∈ build_assets_writes db today, w.2.2 = "completed") := by
  refine ⟨fun _ => rfl, fun _ => rfl, ?_, ?_⟩
  · intro run w hw
    rcases sync_ftp_writes_shape db today run with hsh | ⟨n, hsh⟩
    · rw [hsh] at hw
      exact absurd hw (List.not_mem_nil w)
    · rw [hsh, List.mem_singleton] at hw
      rw [hw]
  · intro w hw
    rw [build_assets_writes] at hw
    split_ifs at hw
    · exact absurd hw (List.not_mem_nil w)
    · rw [List.mem_singleton] at hw
      rw [hw]

/-- Witness for `stage_start_write_spec`: the Pass 1 head-write conjunct on
the empty store, and the Build conjunct applied to the one step row Build
records on `c4_db`. -/
theorem stage_start_write_spec_witness :
    (extract_prices_writes empty_db "2025-01-02" []).head?
        = some ("extract-prices", 0, "in_progress")
    ∧ (("build", 1, "completed") : String × ℕ × String).2.2 = "completed" := by
  refine ⟨(stage_start_write_spec empty_db "2025-01-02").1 [], ?_⟩
  refine (stage_start_write_spec c4_db "2025-01-02").2.2.2 ("build", 1, "completed") ?_
  rw [show build_assets_writes c4_db "2025-01-02" = [("build", 1, "completed")] from rfl]
  exact List.mem_singleton.mpr rfl

/-- C9: the claim matches the spec's intent but not the code — a code
bug.  `RequestMetrics.record_request` accepts only `(service, endpoint)`:
the Pass 1/Pass 2 call sites pass `bytes_downloaded=...` and `failed=True`
keyword arguments, which raise `TypeError` under Python keyword binding,
and the class defines no `get_total_failures` / `get_total_bytes` methods,
so `run_all`'s metrics finalisation would raise `AttributeError`.  The
class itself only counts calls per `(service, endpoint)`. -/
theorem request_metrics_bytes_failures_missing :
    call_record_request ⟨[]⟩ "yahoo_finance" "batch_download" ["bytes_downloaded"]
      = Except.error "TypeError"
    ∧ call_record_request ⟨[]⟩ "yahoo_finance" "batch_download" ["failed"]
      = Except.error "TypeError"
    ∧ request_metrics_methods.contains "get_total_failures" = false
    ∧ request_metrics_methods.contains "get_total_bytes" = false
    ∧ (RequestMetrics.record_request ⟨[]⟩ "yahoo_finance" "batch_download").requests
        = [(("yahoo_finance", "batch_download"), 1)]
    ∧ (RequestMetrics.record_request ⟨[]⟩ "yahoo_finance"
        "batch_download").get_total = 1 := by
  refine ⟨by rfl, by rfl, by rfl, by rfl, by rfl, by rfl⟩

/-- C8: `is_valid_symbol` is a total boolean predicate (it is a Lean
function into `Bool`, so totality and exception-freedom are by
construction); it accepts a raw ticker string iff the (whitespace-stripped)
symbol is 1–5 plain capital letters, is not in the fixed denylist of
sentinel test symbols, and is not a 5-letter symbol ending in a
derivative-class suffix; "AACBU" is rejected by the suffix rule, "TEST" by
the denylist, "TOOLONG1" by length, and "AAPL" is accepted. -/
theorem is_valid_symbol_spec :
    (∀ s : String,
      is_valid_symbol s = true ↔
        (1 ≤ (pyStrip s).length ∧ (pyStrip s).length ≤ 5
          ∧ (∀ c ∈ (pyStrip s).data, 'A' ≤ c ∧ c ≤ 'Z')
          ∧ pyStrip s ∉ (["TEST", "ZZZZ", "XXXX"] : List String)
          ∧ ¬((pyStrip s).length = 5
                ∧ ∃ c ∈ DERIVATIVE_SUFFIXES, (pyStrip s).data.getLast? = some c)))
    ∧ is_valid_symbol "AACBU" = false
    ∧ is_valid_symbol "TEST" = false
    ∧ is_valid_symbol "TOOLONG1" = false
    ∧ is_valid_symbol "AAPL" = true := by
  refine ⟨?_, by decide, by decide, by decide, by decide⟩
  intro s
  have hmem : (pyStrip s ∈ (["TEST", "ZZZZ", "XXXX"] : List String)) ↔
      (pyStrip s = "TEST" ∨ pyStrip s = "ZZZZ" ∨ pyStrip s = "XXXX") := by
    simp [List.mem_cons]
  simp only [is_valid_symbol]
  by_cases h1 : 1 ≤ (pyStrip s).length ∧ (pyStrip s).length ≤ 5
      ∧ ∀ c ∈ (pyStrip s).data, 'A' ≤ c ∧ c ≤ 'Z'
  · rw [if_neg (not_not_intro h1)]
    by_cases h2 : pyStrip s = "TEST" ∨ pyStrip s = "ZZZZ" ∨ pyStrip s = "XXXX"
    · rw [if_pos h2]
      simp only [Bool.false_eq_true, false_iff]
      intro h
      exact h.2.2.2.1 (hmem.mpr h2)
    · rw [if_neg h2]
      by_cases h3 : (pyStrip s).length = 5
          ∧ ∃ c ∈ DERIVATIVE_SUFFIXES, (pyStrip s).data.getLast? = some c
      · rw [if_pos h3]
        simp only [Bool.false_eq_true, false_iff]
        intro h
        exact h.2.2.2.2 h3
      · rw [if_neg h3]
        exact ⟨fun _ => ⟨h1.1, h1.2.1, h1.2.2, fun hm => h2 (hmem.mp hm), h3⟩, fun _ => rfl⟩
  · rw [if_pos h1]
    simp only [Bool.false_eq_true, false_iff]
    intro h
    exact h1 ⟨h.1, h.2.1, h.2.2.1⟩

end StockTicker
